import Mathlib

/-!
Shallow embedding of the v3dv meta-copy module
(`src/broadcom/vulkan/v3dv_meta_copy.c`) and of the Bifrost
instruction-packing test sweeps (`bit_fmod_helper` / `bit_fma_helper`),
together with theorems settling the frozen claims about them.

Machine integers are modelled as `Nat`; wherever 32-bit wraparound can
actually occur in the C code it is made explicit with `% 2^32`.
-/

/-! ## Tiling geometry: framebuffer_size_for_pixel_count -/

/-- Loop body of `framebuffer_size_for_pixel_count`, fuel-indexed so that it
is structurally recursive (and hence evaluates by `decide`/`rfl`).  The C
loop is `while (w > 4096 || ((w % 2) == 0 && w > 2 * h)) { w >>= 1; h <<= 1; }`.
Each iteration strictly decreases `w`, so fuel `w` is always sufficient. -/
def fbGo : Nat → Nat → Nat → Nat × Nat
  | 0, w, h => (w, h)
  | fuel + 1, w, h =>
    if 4096 < w ∨ (w % 2 = 0 ∧ 2 * h < w) then fbGo fuel (w / 2) (h * 2) else (w, h)

/-- Embedding of `framebuffer_size_for_pixel_count`: for counts above
4096*4096 return the maximal square, otherwise run the halving loop starting
from `(num_pixels, 1)`. -/
def framebuffer_size_for_pixel_count (num_pixels : Nat) : Nat × Nat :=
  if 4096 * 4096 < num_pixels then (4096, 4096)
  else fbGo num_pixels num_pixels 1

/-- One application of the near-square preference rule as stated by the
claim (and implemented by the loop body): halve the width and double the
height while the width is even and exceeds twice the height, or while the
width still exceeds the 4096 cap. -/
def nsStep (p q : Nat × Nat) : Prop :=
  (4096 < p.1 ∨ (p.1 % 2 = 0 ∧ 2 * p.2 < p.1)) ∧ q = (p.1 / 2, p.2 * 2)

/-- The loop's result is reachable from its start state by the near-square
rule, and no further rule application is possible at the result. -/
lemma fbGo_reaches (fuel : Nat) : ∀ w h, 0 < w → w ≤ fuel →
    Relation.ReflTransGen nsStep (w, h) (fbGo fuel w h) ∧
      ∀ q, ¬ nsStep (fbGo fuel w h) q := by
  induction fuel with
  | zero => intro w h hw hf; omega
  | succ fuel ih =>
    intro w h hw hf
    by_cases hc : 4096 < w ∨ (w % 2 = 0 ∧ 2 * h < w)
    · have hw2 : 0 < w / 2 := by
        rcases hc with h1 | h2
        · omega
        · omega
      have hf2 : w / 2 ≤ fuel := by omega
      have step : nsStep (w, h) (w / 2, h * 2) := ⟨hc, rfl⟩
      have tail := ih (w / 2) (h * 2) hw2 hf2
      refine ⟨?_, ?_⟩
      · have : fbGo (fuel + 1) w h = fbGo fuel (w / 2) (h * 2) := by
          simp [fbGo, hc]
        rw [this]
        exact Relation.ReflTransGen.head step tail.1
      · have h1 : fbGo (fuel + 1) w h = fbGo fuel (w / 2) (h * 2) := by
          simp [fbGo, hc]
        rw [h1]
        exact tail.2
    · have h1 : fbGo (fuel + 1) w h = (w, h) := by
        simp [fbGo, hc]
      refine ⟨by rw [h1], ?_⟩
      rw [h1]
      intro q hq
      exact hc hq.1

/-- Invariant propagation through the halving loop: with a power-of-two
height at most 4096 and product bounded by `n ≤ 4096*4096`, the loop
result keeps the product bound, keeps both dimensions positive, and ends
with both dimensions at most 4096. -/
lemma fbGo_bounds (fuel : Nat) : ∀ w h n, 0 < w → w ≤ fuel → 0 < h →
    h ≤ 4096 → (∃ k, h = 2 ^ k) → w * h ≤ n → n ≤ 4096 * 4096 →
    (fbGo fuel w h).1 * (fbGo fuel w h).2 ≤ n ∧
      (fbGo fuel w h).1 ≤ 4096 ∧ (fbGo fuel w h).2 ≤ 4096 ∧
      0 < (fbGo fuel w h).1 ∧ 0 < (fbGo fuel w h).2 := by
  induction fuel with
  | zero => intro w h n hw hf; omega
  | succ fuel ih =>
    intro w h n hw hf hh hh4 hpow hwh hn
    by_cases hc : 4096 < w ∨ (w % 2 = 0 ∧ 2 * h < w)
    · have heq : fbGo (fuel + 1) w h = fbGo fuel (w / 2) (h * 2) := by
        simp [fbGo, hc]
      rw [heq]
      have hw2 : 0 < w / 2 := by rcases hc with h1 | h2 <;> omega
      have hprod : (w / 2) * (h * 2) ≤ n := by
        have : (w / 2) * (h * 2) = (2 * (w / 2)) * h := by ring
        have h2 : 2 * (w / 2) ≤ w := by omega
        calc (w / 2) * (h * 2) = (2 * (w / 2)) * h := by ring
          _ ≤ w * h := Nat.mul_le_mul_right h h2
          _ ≤ n := hwh
      obtain ⟨k, hk⟩ := hpow
      have hh2048 : h ≤ 2048 := by
        by_contra hcon
        push_neg at hcon
        have hk11 : 11 < k := by
          by_contra hkk
          push_neg at hkk
          have : (2 : Nat) ^ k ≤ 2 ^ 11 := Nat.pow_le_pow_right (by omega) hkk
          omega
        have h4096 : 4096 ≤ h := by
          have : (2 : Nat) ^ 12 ≤ 2 ^ k := Nat.pow_le_pow_right (by omega) hk11
          omega
        have hwbig : 4096 < w := by
          rcases hc with h1 | h2
          · exact h1
          · omega
        have : 4097 * 4096 ≤ w * h := Nat.mul_le_mul (by omega) (by omega)
        omega
      exact ih (w / 2) (h * 2) n hw2 (by omega) (by omega) (by omega)
        ⟨k + 1, by rw [pow_succ]; omega⟩ hprod hn
    · have heq : fbGo (fuel + 1) w h = (w, h) := by
        simp [fbGo, hc]
      rw [heq]
      push_neg at hc
      exact ⟨hwh, by omega, hh4, hw, hh⟩

/-- C1: for every pixel count `0 < N ≤ 4096*4096`,
`framebuffer_size_for_pixel_count` returns a positive pair `(w, h)` with
`w*h ≤ N`, `w ≤ 4096`, `h ≤ 4096`, obtained from `(N, 1)` by the
near-square preference rule (halving the width and doubling the height
while the width is even and exceeds twice the height, capping the width at
4096), applied until it no longer applies; for `N > 4096*4096` it returns
exactly `(4096, 4096)`. -/
theorem C1_framebuffer_size_spec (n : Nat) (hn : 0 < n) :
    (n ≤ 4096 * 4096 →
      (framebuffer_size_for_pixel_count n).1 *
          (framebuffer_size_for_pixel_count n).2 ≤ n ∧
        (framebuffer_size_for_pixel_count n).1 ≤ 4096 ∧
        (framebuffer_size_for_pixel_count n).2 ≤ 4096 ∧
        0 < (framebuffer_size_for_pixel_count n).1 ∧
        0 < (framebuffer_size_for_pixel_count n).2 ∧
        Relation.ReflTransGen nsStep (n, 1)
          (framebuffer_size_for_pixel_count n) ∧
        (∀ q, ¬ nsStep (framebuffer_size_for_pixel_count n) q)) ∧
    (4096 * 4096 < n → framebuffer_size_for_pixel_count n = (4096, 4096)) := by
  constructor
  · intro hle
    have hif : framebuffer_size_for_pixel_count n = fbGo n n 1 := by
      simp [framebuffer_size_for_pixel_count, Nat.not_lt.mpr hle]
    have hb := fbGo_bounds n n 1 n hn le_rfl (by omega) (by omega)
      ⟨0, rfl⟩ (by omega) hle
    have hr := fbGo_reaches n n 1 hn le_rfl
    rw [hif]
    exact ⟨hb.1, hb.2.1, hb.2.2.1, hb.2.2.2.1, hb.2.2.2.2, hr.1, hr.2⟩
  · intro hgt
    simp [framebuffer_size_for_pixel_count, hgt]

/-- C1 witness: the theorem applied at the concrete pixel count 1025. -/
theorem C1_framebuffer_size_spec_witness :
    (framebuffer_size_for_pixel_count 1025).1 *
        (framebuffer_size_for_pixel_count 1025).2 ≤ 1025 ∧
      framebuffer_size_for_pixel_count 1025 = (1025, 1) :=
  ⟨((C1_framebuffer_size_spec 1025 (by decide)).1 (by decide)).1, by decide⟩

/-! ## Frame tiling, formats and framebuffer data -/

/-- Fields of `struct v3dv_frame_tiling` (declared in the driver's private
header) that the meta-copy code reads. -/
structure v3dv_frame_tiling where
  width : Nat
  height : Nat
  layers : Nat
  internal_bpp : Nat
  tile_width : Nat
  tile_height : Nat
  draw_tiles_x : Nat
  draw_tiles_y : Nat
  supertile_width : Nat
  supertile_height : Nat
  frame_width_in_supertiles : Nat
  frame_height_in_supertiles : Nat
deriving DecidableEq, Repr

/-- Vulkan pixel formats distinguished by the meta-copy code.  All color
formats take the `color` constructor (the `switch` default cases); the id
distinguishes concrete color formats where needed. -/
inductive VkFormat where
  | D16_UNORM
  | D32_SFLOAT
  | X8_D24_UNORM_PACK32
  | D24_UNORM_S8_UINT
  | color (id : Nat)
deriving DecidableEq, Repr

/-- Entry of the external per-format hardware table (`struct v3dv_format`):
the render-target type and the first component of the format swizzle, which
is all the meta-copy code reads. -/
structure v3dv_format where
  rt_type : Nat
  swizzle0 : Nat
deriving DecidableEq, Repr

/-- PIPE_SWIZZLE_Z from the gallium swizzle enum (X=0, Y=1, Z=2, W=3). -/
def PIPE_SWIZZLE_Z : Nat := 2

/-- Embedding of `format_needs_rb_swap`: the format's swizzle maps the
first channel to blue. -/
def format_needs_rb_swap (fmt : v3dv_format) : Bool :=
  fmt.swizzle0 = PIPE_SWIZZLE_Z

/-- Embedding of `struct framebuffer_data`. -/
structure framebuffer_data where
  internal_type : Nat
  min_x_supertile : Nat
  min_y_supertile : Nat
  max_x_supertile : Nat
  max_y_supertile : Nat
  vk_format : VkFormat
  format : v3dv_format
deriving DecidableEq, Repr

/-- Embedding of `setup_framebuffer_data`.  The external
`v3dv_get_format (vk_format)` table lookup is passed in as `fmt`. -/
def setup_framebuffer_data (vk_format : VkFormat) (fmt : v3dv_format)
    (internal_type : Nat) (tiling : v3dv_frame_tiling) : framebuffer_data :=
  { internal_type := internal_type
    min_x_supertile := 0
    min_y_supertile := 0
    max_x_supertile :=
      (tiling.width - 1) / (tiling.tile_width * tiling.supertile_width)
    max_y_supertile :=
      (tiling.height - 1) / (tiling.tile_height * tiling.supertile_height)
    vk_format := vk_format
    format := fmt }

/-- Embedding of `emit_supertile_coordinates`: the list of
(column, row) pairs carried by the emitted SUPERTILE_COORDINATES records,
produced by the row-major double loop (`y` outer from `min_y` to `max_y`,
`x` inner from `min_x` to `max_x`). -/
def emit_supertile_coordinates (fb : framebuffer_data) : List (Nat × Nat) :=
  (List.range' fb.min_y_supertile
      (fb.max_y_supertile + 1 - fb.min_y_supertile)).flatMap fun y =>
    (List.range' fb.min_x_supertile
        (fb.max_x_supertile + 1 - fb.min_x_supertile)).map fun x => (x, y)

/-- Length of a row-major double-loop emission. -/
lemma rowMajor_length (m n a b : Nat) :
    ((List.range' a m).flatMap fun y =>
      (List.range' b n).map fun x => (x, y)).length = m * n := by
  rw [List.length_flatMap]
  have hmap : List.map (List.length ∘ fun y =>
      (List.range' b n).map fun x => (x, y)) (List.range' a m) =
      List.map (fun _ => n) (List.range' a m) :=
    List.map_congr_left fun y _ => by simp
  rw [hmap, List.map_const', List.sum_replicate, List.length_range',
    smul_eq_mul]

/-- Element `i * n + j` of a row-major double-loop emission is the pair for
inner index `j` of outer iteration `i`. -/
lemma rowMajor_getElem? (m : Nat) : ∀ n a b i j, i < m → j < n →
    ((List.range' a m).flatMap fun y =>
      (List.range' b n).map fun x => (x, y))[i * n + j]? =
      some (b + j, a + i) := by
  induction m with
  | zero => intro n a b i j hi; omega
  | succ m ih =>
    intro n a b i j hi hj
    rw [List.range'_succ, List.flatMap_cons]
    cases i with
    | zero =>
      rw [List.getElem?_append]
      have hlen : ((List.range' b n).map fun x => (x, a)).length = n := by
        simp
      simp only [Nat.zero_mul, Nat.zero_add, hlen, if_pos hj]
      rw [List.getElem?_map, List.getElem?_range' b 1 hj]
      simp
    | succ i =>
      rw [List.getElem?_append]
      have hlen : ((List.range' b n).map fun x => (x, a)).length = n := by
        simp
      have hge : ¬ ((i + 1) * n + j < n) := by
        have : n ≤ (i + 1) * n := Nat.le_mul_of_pos_left n (by omega)
        omega
      simp only [hlen, if_neg hge]
      have hidx : (i + 1) * n + j - n = i * n + j := by
        have : (i + 1) * n = i * n + n := by ring
        omega
      rw [hidx, ih n (a + 1) b i j (by omega) hj]
      have : a + 1 + i = a + (i + 1) := by omega
      rw [this]

/-- C2: for positive frame pixel dimensions and positive tile/supertile
spans, the framebuffer's supertile coverage starts at (0,0), each axis'
max supertile satisfies max + 1 = ceil(dimension / supertile_pixel_span)
(i.e. max = ceil − 1), and the emitter produces exactly
(max_x − min_x + 1) * (max_y − min_y + 1) SUPERTILE_COORDINATES records in
row-major order (y outer, x inner) starting at (min_x, min_y). -/
theorem C2_supertile_coverage (vk_format : VkFormat) (fmt : v3dv_format)
    (internal_type : Nat) (tiling : v3dv_frame_tiling)
    (hw : 0 < tiling.width) (hh : 0 < tiling.height)
    (hsw : 0 < tiling.tile_width * tiling.supertile_width)
    (hsh : 0 < tiling.tile_height * tiling.supertile_height) :
    (setup_framebuffer_data vk_format fmt internal_type
        tiling).min_x_supertile = 0 ∧
    (setup_framebuffer_data vk_format fmt internal_type
        tiling).min_y_supertile = 0 ∧
    (setup_framebuffer_data vk_format fmt internal_type
          tiling).max_x_supertile + 1 =
      (tiling.width + tiling.tile_width * tiling.supertile_width - 1) /
        (tiling.tile_width * tiling.supertile_width) ∧
    (setup_framebuffer_data vk_format fmt internal_type
          tiling).max_y_supertile + 1 =
      (tiling.height + tiling.tile_height * tiling.supertile_height - 1) /
        (tiling.tile_height * tiling.supertile_height) ∧
    (emit_supertile_coordinates (setup_framebuffer_data vk_format fmt
          internal_type tiling)).length =
      ((setup_framebuffer_data vk_format fmt internal_type
            tiling).max_x_supertile -
          (setup_framebuffer_data vk_format fmt internal_type
            tiling).min_x_supertile + 1) *
        ((setup_framebuffer_data vk_format fmt internal_type
            tiling).max_y_supertile -
          (setup_framebuffer_data vk_format fmt internal_type
            tiling).min_y_supertile + 1) ∧
    (∀ i j,
      i ≤ (setup_framebuffer_data vk_format fmt internal_type
            tiling).max_y_supertile →
      j ≤ (setup_framebuffer_data vk_format fmt internal_type
            tiling).max_x_supertile →
      (emit_supertile_coordinates (setup_framebuffer_data vk_format fmt
          internal_type tiling))[i * ((setup_framebuffer_data vk_format fmt
            internal_type tiling).max_x_supertile + 1) + j]? =
        some (j, i)) := by
  set sw := tiling.tile_width * tiling.supertile_width with hswdef
  set sh := tiling.tile_height * tiling.supertile_height with hshdef
  set fb := setup_framebuffer_data vk_format fmt internal_type tiling
    with hfb
  have hmin_x : fb.min_x_supertile = 0 := rfl
  have hmin_y : fb.min_y_supertile = 0 := rfl
  have hmax_x : fb.max_x_supertile = (tiling.width - 1) / sw := rfl
  have hmax_y : fb.max_y_supertile = (tiling.height - 1) / sh := rfl
  refine ⟨hmin_x, hmin_y, ?_, ?_, ?_, ?_⟩
  · rw [hmax_x]
    have h1 : tiling.width + sw - 1 = (tiling.width - 1) + sw := by omega
    rw [h1, Nat.add_div_right _ hsw]
  · rw [hmax_y]
    have h1 : tiling.height + sh - 1 = (tiling.height - 1) + sh := by omega
    rw [h1, Nat.add_div_right _ hsh]
  · show (emit_supertile_coordinates fb).length = _
    rw [emit_supertile_coordinates, hmin_x, hmin_y]
    rw [rowMajor_length]
    simp only [Nat.sub_zero]
    ring
  · intro i j hi hj
    rw [emit_supertile_coordinates, hmin_x, hmin_y]
    have h1 : fb.max_y_supertile + 1 - 0 = fb.max_y_supertile + 1 := by omega
    have h2 : fb.max_x_supertile + 1 - 0 = fb.max_x_supertile + 1 := by omega
    rw [h1, h2, rowMajor_getElem? (fb.max_y_supertile + 1)
      (fb.max_x_supertile + 1) 0 0 i j (by omega) (by omega)]
    simp

/-- C2 witness: application at a concrete 17x9 frame with a 4x2-pixel
supertile span: coverage is 5x5 supertiles and record (1*5+2) is (2,1). -/
theorem C2_supertile_coverage_witness :
    (emit_supertile_coordinates (setup_framebuffer_data (VkFormat.color 0)
        ⟨0, 0⟩ 0 ⟨17, 9, 1, 0, 2, 2, 5, 5, 2, 1, 5, 5⟩)).length =
      ((setup_framebuffer_data (VkFormat.color 0) ⟨0, 0⟩ 0
          ⟨17, 9, 1, 0, 2, 2, 5, 5, 2, 1, 5, 5⟩).max_x_supertile -
        (setup_framebuffer_data (VkFormat.color 0) ⟨0, 0⟩ 0
          ⟨17, 9, 1, 0, 2, 2, 5, 5, 2, 1, 5, 5⟩).min_x_supertile + 1) *
      ((setup_framebuffer_data (VkFormat.color 0) ⟨0, 0⟩ 0
          ⟨17, 9, 1, 0, 2, 2, 5, 5, 2, 1, 5, 5⟩).max_y_supertile -
        (setup_framebuffer_data (VkFormat.color 0) ⟨0, 0⟩ 0
          ⟨17, 9, 1, 0, 2, 2, 5, 5, 2, 1, 5, 5⟩).min_y_supertile + 1) :=
  (C2_supertile_coverage (VkFormat.color 0) ⟨0, 0⟩ 0
    ⟨17, 9, 1, 0, 2, 2, 5, 5, 2, 1, 5, 5⟩ (by decide) (by decide)
    (by decide) (by decide)).2.2.2.2.1

/-! ## TLB format selection and load/store records -/

/-- Vulkan aspect bits (VkImageAspectFlagBits). -/
def VK_IMAGE_ASPECT_COLOR_BIT : Nat := 1

/-- Depth aspect bit. -/
def VK_IMAGE_ASPECT_DEPTH_BIT : Nat := 2

/-- Stencil aspect bit. -/
def VK_IMAGE_ASPECT_STENCIL_BIT : Nat := 4

/-- Stand-ins for the hardware output-image-format enum from the external
packet headers; only their identities matter to the meta-copy logic. -/
def V3D_OUTPUT_IMAGE_FORMAT_R8UI : Nat := 1

/-- Two-channel 8-bit unsigned integer output format. -/
def V3D_OUTPUT_IMAGE_FORMAT_RG8UI : Nat := 2

/-- Four-channel 8-bit unsigned integer output format. -/
def V3D_OUTPUT_IMAGE_FORMAT_RGBA8UI : Nat := 3

/-- Single-channel 16-bit unsigned integer output format. -/
def V3D_OUTPUT_IMAGE_FORMAT_R16UI : Nat := 4

/-- Single-channel 32-bit float output format. -/
def V3D_OUTPUT_IMAGE_FORMAT_R32F : Nat := 5

/-- Embedding of `choose_tlb_format`. -/
def choose_tlb_format (framebuffer : framebuffer_data) (aspect : Nat)
    (for_store is_copy_to_buffer is_copy_from_buffer : Bool) : Nat :=
  if is_copy_to_buffer || is_copy_from_buffer then
    match framebuffer.vk_format with
    | .D16_UNORM => V3D_OUTPUT_IMAGE_FORMAT_R16UI
    | .D32_SFLOAT => V3D_OUTPUT_IMAGE_FORMAT_R32F
    | .X8_D24_UNORM_PACK32 => V3D_OUTPUT_IMAGE_FORMAT_RGBA8UI
    | .D24_UNORM_S8_UINT =>
      if aspect &&& VK_IMAGE_ASPECT_DEPTH_BIT ≠ 0 then
        V3D_OUTPUT_IMAGE_FORMAT_RGBA8UI
      else if is_copy_to_buffer then
        (if for_store then V3D_OUTPUT_IMAGE_FORMAT_R8UI
         else V3D_OUTPUT_IMAGE_FORMAT_RGBA8UI)
      else
        (if for_store then V3D_OUTPUT_IMAGE_FORMAT_RGBA8UI
         else V3D_OUTPUT_IMAGE_FORMAT_R8UI)
    | .color _ => framebuffer.format.rt_type
  else
    framebuffer.format.rt_type

/-- Hardware tiling modes of an image slice (enum vc5_tiling_mode). -/
inductive VC5Tiling where
  | RASTER
  | LINEARTILE
  | UBLINEAR_1_COLUMN
  | UBLINEAR_2_COLUMN
  | UIF_NO_XOR
  | UIF_XOR
deriving DecidableEq, Repr

/-- Fields of `struct v3d_resource_slice` read by the meta-copy code. -/
structure v3d_resource_slice where
  tiling : VC5Tiling
  padded_height_of_output_image_in_uif_blocks : Nat
  stride : Nat
deriving DecidableEq, Repr

/-- Fields of `struct v3dv_image` read by the meta-copy code.  `slices` maps
a mip level to its slice; `utile_height` carries the value of the external
helper `v3d_utile_height (cpp)`, which lives outside this corpus. -/
structure v3dv_image where
  cpp : Nat
  utile_height : Nat
  samples : Nat
  slices : Nat → v3d_resource_slice

/-- Tile-buffer targets of LOAD/STORE_TILE_BUFFER_GENERAL records. -/
inductive TLBBufferTarget where
  | RENDER_TARGET_0
  | Z
  | S
  | ZS
  | NONE
deriving DecidableEq, Repr

/-- Embedding of the external inline helper
`v3dv_zs_buffer_from_aspect_bits` (private header): map depth/stencil
aspect bits to the corresponding depth/stencil tile buffer. -/
def v3dv_zs_buffer_from_aspect_bits (aspects : Nat) : TLBBufferTarget :=
  if aspects &&& VK_IMAGE_ASPECT_DEPTH_BIT ≠ 0 ∧
      aspects &&& VK_IMAGE_ASPECT_STENCIL_BIT ≠ 0 then .ZS
  else if aspects &&& VK_IMAGE_ASPECT_DEPTH_BIT ≠ 0 then .Z
  else .S

/-- Decimate mode: sample 0 only. -/
def V3D_DECIMATE_MODE_SAMPLE_0 : Nat := 0

/-- Decimate mode: all samples. -/
def V3D_DECIMATE_MODE_ALL_SAMPLES : Nat := 3

/-- Fields of a LOAD_TILE_BUFFER_GENERAL record that the meta-copy code
sets (address/bo fields are external relocations and omitted; packet
fields not written keep their hardware reset value, `false`/0). -/
structure LoadTileBufferGeneral where
  buffer_to_load : TLBBufferTarget
  input_image_format : Nat
  memory_format : VC5Tiling
  r_b_swap : Bool
  channel_reverse : Bool
  height_in_ub_or_stride : Nat
  decimate_mode : Nat
deriving DecidableEq, Repr

/-- Fields of a STORE_TILE_BUFFER_GENERAL record that the meta-copy code
sets. -/
structure StoreTileBufferGeneral where
  buffer_to_store : TLBBufferTarget
  clear_buffer_being_stored : Bool
  output_image_format : Nat
  memory_format : VC5Tiling
  r_b_swap : Bool
  channel_reverse : Bool
  height_in_ub_or_stride : Nat
  decimate_mode : Nat
deriving DecidableEq, Repr

/-- Embedding of `emit_image_load`: the LOAD_TILE_BUFFER_GENERAL record
emitted for loading an image slice into the tile buffer. -/
def emit_image_load (fb : framebuffer_data) (image : v3dv_image)
    (aspect : Nat) (mip_level : Nat)
    (is_copy_to_buffer is_copy_from_buffer : Bool) : LoadTileBufferGeneral :=
  let slice := image.slices mip_level
  let load_to_color_tlb :=
    is_copy_to_buffer || is_copy_from_buffer ||
      decide (aspect = VK_IMAGE_ASPECT_COLOR_BIT)
  let fixup : Bool × Bool :=
    if is_copy_to_buffer = true ∧
        (fb.vk_format = .X8_D24_UNORM_PACK32 ∨
          (fb.vk_format = .D24_UNORM_S8_UINT ∧
            aspect &&& VK_IMAGE_ASPECT_DEPTH_BIT ≠ 0)) then
      (true, true)
    else if is_copy_from_buffer = false ∧ is_copy_to_buffer = false ∧
        aspect &&& VK_IMAGE_ASPECT_COLOR_BIT ≠ 0 then
      (format_needs_rb_swap fb.format, false)
    else
      (false, false)
  { buffer_to_load :=
      if load_to_color_tlb then .RENDER_TARGET_0
      else v3dv_zs_buffer_from_aspect_bits aspect
    input_image_format :=
      choose_tlb_format fb aspect false is_copy_to_buffer is_copy_from_buffer
    memory_format := slice.tiling
    r_b_swap := fixup.1
    channel_reverse := fixup.2
    height_in_ub_or_stride :=
      if slice.tiling = .UIF_NO_XOR ∨ slice.tiling = .UIF_XOR then
        slice.padded_height_of_output_image_in_uif_blocks
      else if slice.tiling = .RASTER then slice.stride
      else 0
    decimate_mode :=
      if 1 < image.samples then V3D_DECIMATE_MODE_ALL_SAMPLES
      else V3D_DECIMATE_MODE_SAMPLE_0 }

/-- Embedding of `emit_image_store`: the STORE_TILE_BUFFER_GENERAL record
emitted for storing the tile buffer into an image slice. -/
def emit_image_store (fb : framebuffer_data) (image : v3dv_image)
    (aspect : Nat) (mip_level : Nat)
    (is_copy_to_buffer is_copy_from_buffer : Bool) : StoreTileBufferGeneral :=
  let slice := image.slices mip_level
  let store_from_color_tlb :=
    is_copy_to_buffer || is_copy_from_buffer ||
      decide (aspect = VK_IMAGE_ASPECT_COLOR_BIT)
  let fixup : Bool × Bool :=
    if is_copy_from_buffer = true ∧
        (fb.vk_format = .X8_D24_UNORM_PACK32 ∨
          (fb.vk_format = .D24_UNORM_S8_UINT ∧
            aspect &&& VK_IMAGE_ASPECT_DEPTH_BIT ≠ 0)) then
      (true, true)
    else if is_copy_from_buffer = false ∧ is_copy_to_buffer = false ∧
        aspect &&& VK_IMAGE_ASPECT_COLOR_BIT ≠ 0 then
      (format_needs_rb_swap fb.format, false)
    else
      (false, false)
  { buffer_to_store :=
      if store_from_color_tlb then .RENDER_TARGET_0
      else v3dv_zs_buffer_from_aspect_bits aspect
    clear_buffer_being_stored := false
    output_image_format :=
      choose_tlb_format fb aspect true is_copy_to_buffer is_copy_from_buffer
    memory_format := slice.tiling
    r_b_swap := fixup.1
    channel_reverse := fixup.2
    height_in_ub_or_stride :=
      if slice.tiling = .UIF_NO_XOR ∨ slice.tiling = .UIF_XOR then
        slice.padded_height_of_output_image_in_uif_blocks
      else if slice.tiling = .RASTER then slice.stride
      else 0
    decimate_mode :=
      if 1 < image.samples then V3D_DECIMATE_MODE_ALL_SAMPLES
      else V3D_DECIMATE_MODE_SAMPLE_0 }

/-- Embedding of `emit_linear_load`: raster load from a buffer object.  The
record sets no channel fixup fields, so they keep the reset value false. -/
def emit_linear_load (buffer : TLBBufferTarget) (stride fmt : Nat) :
    LoadTileBufferGeneral :=
  { buffer_to_load := buffer
    input_image_format := fmt
    memory_format := .RASTER
    r_b_swap := false
    channel_reverse := false
    height_in_ub_or_stride := stride
    decimate_mode := V3D_DECIMATE_MODE_SAMPLE_0 }

/-- Embedding of `emit_linear_store`: raster store to a buffer object; the
C function hardcodes RENDER_TARGET_0 as the stored buffer and sets no
channel fixup fields. -/
def emit_linear_store (stride : Nat) (msaa : Bool) (fmt : Nat) :
    StoreTileBufferGeneral :=
  { buffer_to_store := .RENDER_TARGET_0
    clear_buffer_being_stored := false
    output_image_format := fmt
    memory_format := .RASTER
    r_b_swap := false
    channel_reverse := false
    height_in_ub_or_stride := stride
    decimate_mode :=
      if msaa then V3D_DECIMATE_MODE_ALL_SAMPLES
      else V3D_DECIMATE_MODE_SAMPLE_0 }

/-- C4: for D24S8 buffer transfers, the stencil aspect stores to a buffer
with R8UI and loads with RGBA8UI; from a buffer it loads with R8UI and
stores with RGBA8UI; the depth aspect uses RGBA8UI for both load and store
in both directions; and any color-format framebuffer always gets the
format's native render-target type. -/
theorem C4_tlb_format_selection (fb : framebuffer_data)
    (hfmt : fb.vk_format = VkFormat.D24_UNORM_S8_UINT) :
    choose_tlb_format fb VK_IMAGE_ASPECT_STENCIL_BIT true true false =
      V3D_OUTPUT_IMAGE_FORMAT_R8UI ∧
    choose_tlb_format fb VK_IMAGE_ASPECT_STENCIL_BIT false true false =
      V3D_OUTPUT_IMAGE_FORMAT_RGBA8UI ∧
    choose_tlb_format fb VK_IMAGE_ASPECT_STENCIL_BIT false false true =
      V3D_OUTPUT_IMAGE_FORMAT_R8UI ∧
    choose_tlb_format fb VK_IMAGE_ASPECT_STENCIL_BIT true false true =
      V3D_OUTPUT_IMAGE_FORMAT_RGBA8UI ∧
    (∀ for_store : Bool,
      choose_tlb_format fb VK_IMAGE_ASPECT_DEPTH_BIT for_store true false =
        V3D_OUTPUT_IMAGE_FORMAT_RGBA8UI ∧
      choose_tlb_format fb VK_IMAGE_ASPECT_DEPTH_BIT for_store false true =
        V3D_OUTPUT_IMAGE_FORMAT_RGBA8UI) ∧
    (∀ (fb' : framebuffer_data) (id aspect : Nat)
        (for_store to_buf from_buf : Bool),
      fb'.vk_format = VkFormat.color id →
      choose_tlb_format fb' aspect for_store to_buf from_buf =
        fb'.format.rt_type) := by
  have h42 : (4 : Nat) &&& 2 = 0 := by decide
  refine ⟨?_, ?_, ?_, ?_, ?_, ?_⟩
  · simp [choose_tlb_format, hfmt, VK_IMAGE_ASPECT_STENCIL_BIT,
      VK_IMAGE_ASPECT_DEPTH_BIT, h42]
  · simp [choose_tlb_format, hfmt, VK_IMAGE_ASPECT_STENCIL_BIT,
      VK_IMAGE_ASPECT_DEPTH_BIT, h42]
  · simp [choose_tlb_format, hfmt, VK_IMAGE_ASPECT_STENCIL_BIT,
      VK_IMAGE_ASPECT_DEPTH_BIT, h42]
  · simp [choose_tlb_format, hfmt, VK_IMAGE_ASPECT_STENCIL_BIT,
      VK_IMAGE_ASPECT_DEPTH_BIT, h42]
  · intro for_store
    cases for_store <;>
      simp [choose_tlb_format, hfmt, VK_IMAGE_ASPECT_DEPTH_BIT]
  · intro fb' id aspect for_store to_buf from_buf h
    cases to_buf <;> cases from_buf <;> simp [choose_tlb_format, h]

/-- C4 witness: the theorem applied to a concrete D24S8 framebuffer. -/
theorem C4_tlb_format_selection_witness :
    choose_tlb_format
        ⟨0, 0, 0, 0, 0, VkFormat.D24_UNORM_S8_UINT, ⟨7, 0⟩⟩
        VK_IMAGE_ASPECT_STENCIL_BIT true true false =
      V3D_OUTPUT_IMAGE_FORMAT_R8UI :=
  (C4_tlb_format_selection
    ⟨0, 0, 0, 0, 0, VkFormat.D24_UNORM_S8_UINT, ⟨7, 0⟩⟩ rfl).1

/-- C5: for a copy of the depth aspect of a 24-bit depth format (X8_D24 or
D24S8) to or from a linear buffer, the channel-reverse and red-blue-swap
fixup flags are both set; the rule is applied identically by the load-side
and store-side emitters, with the placement reversing between directions
(the image-load record carries the flags on the copy-to-buffer direction
and the image-store record carries them on the copy-from-buffer
direction); for ordinary color copies that are not to/from a linear buffer
the red-blue swap is set iff the format swizzle maps the first channel to
blue and the channel-reverse flag is never set. -/
theorem C5_channel_fixup_flags (fb : framebuffer_data) (img : v3dv_image)
    (mip : Nat) :
    (∀ aspect : Nat,
      (fb.vk_format = VkFormat.X8_D24_UNORM_PACK32 ∨
        (fb.vk_format = VkFormat.D24_UNORM_S8_UINT ∧
          aspect &&& VK_IMAGE_ASPECT_DEPTH_BIT ≠ 0)) →
      (emit_image_load fb img aspect mip true false).r_b_swap = true ∧
      (emit_image_load fb img aspect mip true false).channel_reverse
        = true ∧
      (emit_image_store fb img aspect mip false true).r_b_swap = true ∧
      (emit_image_store fb img aspect mip false true).channel_reverse
        = true) ∧
    (∀ (aspect : Nat) (d1 d2 : Bool),
      (emit_image_load fb img aspect mip d1 d2).r_b_swap =
        (emit_image_store fb img aspect mip d2 d1).r_b_swap ∧
      (emit_image_load fb img aspect mip d1 d2).channel_reverse =
        (emit_image_store fb img aspect mip d2 d1).channel_reverse) ∧
    (∀ aspect : Nat, aspect &&& VK_IMAGE_ASPECT_COLOR_BIT ≠ 0 →
      ((emit_image_load fb img aspect mip false false).r_b_swap = true ↔
        fb.format.swizzle0 = PIPE_SWIZZLE_Z) ∧
      (emit_image_load fb img aspect mip false false).channel_reverse
        = false ∧
      ((emit_image_store fb img aspect mip false false).r_b_swap = true ↔
        fb.format.swizzle0 = PIPE_SWIZZLE_Z) ∧
      (emit_image_store fb img aspect mip false false).channel_reverse
        = false) := by
  refine ⟨?_, ?_, ?_⟩
  · intro aspect h
    rcases h with h | ⟨h, hd⟩
    · refine ⟨?_, ?_, ?_, ?_⟩ <;> simp [emit_image_load, emit_image_store, h]
    · refine ⟨?_, ?_, ?_, ?_⟩ <;>
        simp [emit_image_load, emit_image_store, h, hd]
  · intro aspect d1 d2
    cases d1 <;> cases d2 <;>
      refine ⟨?_, ?_⟩ <;> simp [emit_image_load, emit_image_store]
  · intro aspect h
    refine ⟨?_, ?_, ?_, ?_⟩ <;>
      simp [emit_image_load, emit_image_store, h, format_needs_rb_swap]

/-- C5 witness: the theorem applied to a concrete D24S8 framebuffer, depth
aspect, copy-to-buffer direction. -/
theorem C5_channel_fixup_flags_witness :
    (emit_image_load
        ⟨0, 0, 0, 0, 0, VkFormat.D24_UNORM_S8_UINT, ⟨7, 0⟩⟩
        ⟨4, 4, 1, fun _ => ⟨VC5Tiling.UIF_NO_XOR, 10, 0⟩⟩
        VK_IMAGE_ASPECT_DEPTH_BIT 0 true false).r_b_swap = true :=
  (((C5_channel_fixup_flags
      ⟨0, 0, 0, 0, 0, VkFormat.D24_UNORM_S8_UINT, ⟨7, 0⟩⟩
      ⟨4, 4, 1, fun _ => ⟨VC5Tiling.UIF_NO_XOR, 10, 0⟩⟩ 0).1
    VK_IMAGE_ASPECT_DEPTH_BIT (Or.inr ⟨rfl, by decide⟩))).1

/-! ## RCL prologue and UIF clear padding -/

/-- Internal bpp class enum (32bpp = 0, 64bpp = 1, 128bpp = 2, as in the
hardware packet headers; the code compares with `>=`). -/
def V3D_INTERNAL_BPP_32 : Nat := 0

/-- Internal bpp class for 64 bits per pixel. -/
def V3D_INTERNAL_BPP_64 : Nat := 1

/-- Internal bpp class for 128 bits per pixel. -/
def V3D_INTERNAL_BPP_128 : Nat := 2

/-- Modulus of 32-bit unsigned arithmetic. -/
def UINT32_MOD : Nat := 4294967296

/-- The `align` macro for the power-of-two alignments used here: round `v`
up to a multiple of `a`. -/
def align (v a : Nat) : Nat := ((v + a - 1) / a) * a

/-- IEEE-754 bit pattern of 1.0f, the default depth clear value. -/
def float_one_bits : Nat := 0x3f800000

/-- Embedding of `union v3dv_clear_value` (both views of the union carried
as fields; `z` carries the raw bits of the float). -/
structure v3dv_clear_value where
  color0 : Nat
  color1 : Nat
  color2 : Nat
  color3 : Nat
  z : Nat
  s : Nat

/-- Embedding of `struct rcl_clear_info`. -/
structure rcl_clear_info where
  clear_value : v3dv_clear_value
  image : Option v3dv_image
  aspects : Nat
  layer : Nat
  level : Nat

/-- Records appended to the RCL by `emit_rcl_prologue`, with the fields the
code computes. -/
inductive RclRecord where
  | cfg_common (image_width_pixels image_height_pixels max_bpp : Nat)
  | clear_colors_part1 (low32 next24 : Nat)
  | clear_colors_part2 (mid_low32 mid_high24 : Nat)
  | clear_colors_part3 (uif_padded_height_in_uif_blocks high16 : Nat)
  | cfg_color (internal_bpp internal_type : Nat)
  | zs_clear_values (z s : Nat)
  | tile_list_initial_block_size (auto_chained : Bool)
deriving DecidableEq, Repr

/-- The `clear_pad` local computed by `emit_rcl_prologue` for a clear with
a color aspect: for a UIF-tiled slice whose padded height minus the
implicitly computed padded height is at least 15 in `uint32_t` arithmetic,
the slice's padded height in UIF blocks, otherwise 0.  `uif_block_height`
is `v3d_utile_height (image->cpp) * 2` via the carried `utile_height`. -/
def rcl_clear_pad (tiling : v3dv_frame_tiling) (ci : rcl_clear_info) : Nat :=
  match ci.image with
  | none => 0
  | some image =>
    let slice := image.slices ci.level
    if slice.tiling = VC5Tiling.UIF_NO_XOR ∨
        slice.tiling = VC5Tiling.UIF_XOR then
      let uif_block_height := image.utile_height * 2
      let implicit_padded_height :=
        align tiling.height uif_block_height / uif_block_height
      if 15 ≤ (slice.padded_height_of_output_image_in_uif_blocks +
          UINT32_MOD - implicit_padded_height) % UINT32_MOD then
        slice.padded_height_of_output_image_in_uif_blocks
      else 0
    else 0

/-- Embedding of `emit_rcl_prologue`: the sequence of records appended to
the render control list, including the conditional second and third
clear-color records.  The `uint32_t` subtraction in the UIF padding test is
modelled with explicit mod-2^32 arithmetic. -/
def emit_rcl_prologue (tiling : v3dv_frame_tiling) (rt_internal_type : Nat)
    (clear_info : Option rcl_clear_info) : List RclRecord :=
  let clear_records :=
    match clear_info with
    | none => []
    | some ci =>
      if ci.aspects &&& VK_IMAGE_ASPECT_COLOR_BIT ≠ 0 then
        let clear_pad := rcl_clear_pad tiling ci
        [RclRecord.clear_colors_part1 ci.clear_value.color0
          (ci.clear_value.color1 &&& 0xffffff)] ++
        (if V3D_INTERNAL_BPP_64 ≤ tiling.internal_bpp then
          [RclRecord.clear_colors_part2
            (((ci.clear_value.color1 >>> 24) |||
              (ci.clear_value.color2 <<< 8)) % UINT32_MOD)
            ((ci.clear_value.color2 >>> 24) |||
              ((ci.clear_value.color3 &&& 0xffff) <<< 8))]
        else []) ++
        (if V3D_INTERNAL_BPP_128 ≤ tiling.internal_bpp ∨ clear_pad ≠ 0 then
          [RclRecord.clear_colors_part3 clear_pad
            (ci.clear_value.color3 >>> 16)]
        else [])
      else []
  RclRecord.cfg_common tiling.width tiling.height tiling.internal_bpp ::
    clear_records ++
    [RclRecord.cfg_color tiling.internal_bpp rt_internal_type,
     RclRecord.zs_clear_values
       (match clear_info with
        | some ci => ci.clear_value.z
        | none => float_one_bits)
       (match clear_info with
        | some ci => ci.clear_value.s
        | none => 0),
     RclRecord.tile_list_initial_block_size true]

/-- First third-clear-color record of a record list, if any, projected to
its uif_padded_height_in_uif_blocks field. -/
def extractPart3Pad : List RclRecord → Option Nat
  | [] => none
  | RclRecord.clear_colors_part3 pad _ :: _ => some pad
  | _ :: rest => extractPart3Pad rest

/-- The third clear-color record is emitted exactly when the bpp class
reaches 128 or the computed clear pad is nonzero, and it carries the
computed clear pad. -/
lemma extractPart3Pad_emit_rcl_prologue (tiling : v3dv_frame_tiling)
    (rt : Nat) (ci : rcl_clear_info)
    (haspect : ci.aspects &&& VK_IMAGE_ASPECT_COLOR_BIT ≠ 0) :
    extractPart3Pad (emit_rcl_prologue tiling rt (some ci)) =
      if V3D_INTERNAL_BPP_128 ≤ tiling.internal_bpp ∨
          rcl_clear_pad tiling ci ≠ 0 then
        some (rcl_clear_pad tiling ci)
      else none := by
  unfold emit_rcl_prologue
  simp only [haspect, if_pos, ne_eq, not_false_eq_true, if_true]
  by_cases h64 : V3D_INTERNAL_BPP_64 ≤ tiling.internal_bpp <;>
    by_cases h3 : V3D_INTERNAL_BPP_128 ≤ tiling.internal_bpp ∨
      rcl_clear_pad tiling ci ≠ 0 <;>
    simp [h64, h3, extractPart3Pad]

/-- C3 counterexample: clearing the color aspect of a UIF-tiled image whose
slice padded height (24 blocks) exceeds the implicit padded height
(align(32,8)/8 = 4 blocks) by 20 blocks, at internal bpp 32, emits the
third clear-color record, but its padding field carries the full slice
padded height 24, not the difference 20 stated by the claim. -/
theorem C3_uif_clear_pad_counterexample :
    extractPart3Pad (emit_rcl_prologue ⟨64, 32, 1, 0, 8, 8, 1, 1, 1, 1, 1, 1⟩
        0 (some ⟨⟨0, 0, 0, 0, 0, 0⟩,
          some ⟨4, 4, 1, fun _ => ⟨VC5Tiling.UIF_NO_XOR, 24, 0⟩⟩,
          1, 0, 0⟩)) = some 24 ∧
    ¬ (extractPart3Pad (emit_rcl_prologue ⟨64, 32, 1, 0, 8, 8, 1, 1, 1, 1, 1,
        1⟩ 0 (some ⟨⟨0, 0, 0, 0, 0, 0⟩,
          some ⟨4, 4, 1, fun _ => ⟨VC5Tiling.UIF_NO_XOR, 24, 0⟩⟩,
          1, 0, 0⟩)) = some 20) := by
  constructor
  · decide
  · decide

/-- C3 amended: for a color-aspect clear of a UIF-tiled slice, when the
slice's padded height in UIF blocks exceeds the implicitly computed padded
height by at least 15 blocks, the third clear-color record is emitted (even
at bpp < 128) and its padding field carries the slice's full padded height
in UIF blocks (not the difference); when the excess is nonnegative but
below 15 and bpp < 128, no third clear-color record is emitted. -/
theorem C3_uif_clear_pad_amended (tiling : v3dv_frame_tiling) (rt : Nat)
    (ci : rcl_clear_info) (image : v3dv_image)
    (himg : ci.image = some image)
    (haspect : ci.aspects &&& VK_IMAGE_ASPECT_COLOR_BIT ≠ 0)
    (huif : (image.slices ci.level).tiling = VC5Tiling.UIF_NO_XOR ∨
      (image.slices ci.level).tiling = VC5Tiling.UIF_XOR)
    (hfit : (image.slices
        ci.level).padded_height_of_output_image_in_uif_blocks <
      UINT32_MOD) :
    (15 ≤ (image.slices
          ci.level).padded_height_of_output_image_in_uif_blocks -
        align tiling.height (image.utile_height * 2) /
          (image.utile_height * 2) →
      extractPart3Pad (emit_rcl_prologue tiling rt (some ci)) =
        some (image.slices
          ci.level).padded_height_of_output_image_in_uif_blocks) ∧
    (align tiling.height (image.utile_height * 2) /
          (image.utile_height * 2) ≤
        (image.slices
          ci.level).padded_height_of_output_image_in_uif_blocks →
      (image.slices
          ci.level).padded_height_of_output_image_in_uif_blocks -
        align tiling.height (image.utile_height * 2) /
          (image.utile_height * 2) < 15 →
      tiling.internal_bpp < V3D_INTERNAL_BPP_128 →
      extractPart3Pad (emit_rcl_prologue tiling rt (some ci)) = none) := by
  have husub : ∀ p i : Nat, p < UINT32_MOD → i ≤ p →
      (p + UINT32_MOD - i) % UINT32_MOD = p - i := by
    intro p i hp hi
    simp only [UINT32_MOD] at *
    omega
  constructor
  · intro h15
    have hile : align tiling.height (image.utile_height * 2) /
        (image.utile_height * 2) ≤
        (image.slices
          ci.level).padded_height_of_output_image_in_uif_blocks := by
      omega
    have hmodeq := husub _ _ hfit hile
    have hpadne : (image.slices
        ci.level).padded_height_of_output_image_in_uif_blocks ≠ 0 := by
      have h1 : 15 ≤ (image.slices
          ci.level).padded_height_of_output_image_in_uif_blocks :=
        le_trans h15 (Nat.sub_le _ _)
      omega
    have hcp : rcl_clear_pad tiling ci =
        (image.slices
          ci.level).padded_height_of_output_image_in_uif_blocks := by
      unfold rcl_clear_pad
      rw [himg]
      dsimp only
      rw [if_pos huif, hmodeq, if_pos h15]
    rw [extractPart3Pad_emit_rcl_prologue tiling rt ci haspect, hcp,
      if_pos (Or.inr hpadne)]
  · intro hmono h15 hbpp
    have hmodeq := husub _ _ hfit hmono
    have hcp : rcl_clear_pad tiling ci = 0 := by
      unfold rcl_clear_pad
      rw [himg]
      dsimp only
      rw [if_pos huif, hmodeq, if_neg (by omega)]
    have hno : ¬ (V3D_INTERNAL_BPP_128 ≤ tiling.internal_bpp ∨
        (0 : Nat) ≠ 0) := by
      simp only [V3D_INTERNAL_BPP_128] at hbpp ⊢
      omega
    rw [extractPart3Pad_emit_rcl_prologue tiling rt ci haspect, hcp,
      if_neg hno]

/-- C3 witness: the amended theorem applied at the counterexample's
concrete input (excess 20 at bpp 32 gives a third record carrying 24). -/
theorem C3_uif_clear_pad_amended_witness :
    extractPart3Pad (emit_rcl_prologue ⟨64, 32, 1, 0, 8, 8, 1, 1, 1, 1, 1, 1⟩
        0 (some ⟨⟨0, 0, 0, 0, 0, 0⟩,
          some ⟨4, 4, 1, fun _ => ⟨VC5Tiling.UIF_NO_XOR, 24, 0⟩⟩,
          1, 0, 0⟩)) = some 24 :=
  (C3_uif_clear_pad_amended ⟨64, 32, 1, 0, 8, 8, 1, 1, 1, 1, 1, 1⟩ 0
    ⟨⟨0, 0, 0, 0, 0, 0⟩,
      some ⟨4, 4, 1, fun _ => ⟨VC5Tiling.UIF_NO_XOR, 24, 0⟩⟩, 1, 0, 0⟩
    ⟨4, 4, 1, fun _ => ⟨VC5Tiling.UIF_NO_XOR, 24, 0⟩⟩ rfl (by decide)
    (Or.inl rfl) (by decide)).1 (by decide)

/-! ## Buffer-to-image upload tile lists -/

/-- Image extent (VkExtent3D). -/
structure VkExtent3D where
  width : Nat
  height : Nat
  depth : Nat
deriving DecidableEq, Repr

/-- Subresource layers of a buffer/image copy (VkImageSubresourceLayers). -/
structure VkImageSubresourceLayers where
  aspectMask : Nat
  mipLevel : Nat
  baseArrayLayer : Nat
  layerCount : Nat
deriving DecidableEq, Repr

/-- Fields of VkBufferImageCopy read by the embedded functions (the image
offset is validated to be zero by the callers and not read here). -/
structure VkBufferImageCopy where
  bufferOffset : Nat
  bufferRowLength : Nat
  bufferImageHeight : Nat
  imageSubresource : VkImageSubresourceLayers
  imageExtent : VkExtent3D
deriving DecidableEq, Repr

/-- Operations appended to a per-tile indirect list, in order. -/
inductive TileOp where
  | tile_coordinates_implicit
  | load (r : LoadTileBufferGeneral)
  | end_of_loads
  | branch_to_implicit_tile_list
  | store (r : StoreTileBufferGeneral)
  | end_of_tile_marker
  | return_from_sub_list
deriving DecidableEq, Repr

/-- Embedding of `emit_copy_buffer_to_layer_per_tile_list`: the ordered
operations of the tile-list body for uploading a buffer region into one
image layer, including the extra load/store pair that preserves the other
aspect of a combined D24S8 image. -/
def emit_copy_buffer_to_layer_per_tile_list (fb : framebuffer_data)
    (image : v3dv_image) (layer : Nat) (region : VkBufferImageCopy) :
    List TileOp :=
  let imgrsc := region.imageSubresource
  let width := if region.bufferRowLength = 0 then region.imageExtent.width
    else region.bufferRowLength
  let height := if region.bufferImageHeight = 0 then
    region.imageExtent.height else region.bufferImageHeight
  let cpp := if imgrsc.aspectMask &&& VK_IMAGE_ASPECT_STENCIL_BIT ≠ 0 then 1
    else image.cpp
  let buffer_stride := width * cpp
  let fmt := choose_tlb_format fb imgrsc.aspectMask false false true
  [TileOp.tile_coordinates_implicit,
   TileOp.load
     (emit_linear_load TLBBufferTarget.RENDER_TARGET_0 buffer_stride fmt)] ++
  (if fb.vk_format = VkFormat.D24_UNORM_S8_UINT then
    (if imgrsc.aspectMask &&& VK_IMAGE_ASPECT_DEPTH_BIT ≠ 0 then
      [TileOp.load (emit_image_load fb image VK_IMAGE_ASPECT_STENCIL_BIT
        imgrsc.mipLevel false false)]
    else
      [TileOp.load (emit_image_load fb image VK_IMAGE_ASPECT_DEPTH_BIT
        imgrsc.mipLevel false false)])
  else []) ++
  [TileOp.end_of_loads, TileOp.branch_to_implicit_tile_list,
   TileOp.store (emit_image_store fb image imgrsc.aspectMask
     imgrsc.mipLevel false true)] ++
  (if fb.vk_format = VkFormat.D24_UNORM_S8_UINT then
    (if imgrsc.aspectMask &&& VK_IMAGE_ASPECT_DEPTH_BIT ≠ 0 then
      [TileOp.store (emit_image_store fb image VK_IMAGE_ASPECT_STENCIL_BIT
        imgrsc.mipLevel false false)]
    else
      [TileOp.store (emit_image_store fb image VK_IMAGE_ASPECT_DEPTH_BIT
        imgrsc.mipLevel false false)])
  else []) ++
  [TileOp.end_of_tile_marker, TileOp.return_from_sub_list]

/-- Projection of a tile list to its tile-buffer load/store operations,
each summarized as (is-store, tile-buffer target). -/
def tlbOps (l : List TileOp) : List (Bool × TLBBufferTarget) :=
  l.filterMap fun op =>
    match op with
    | TileOp.load r => some (false, r.buffer_to_load)
    | TileOp.store r => some (true, r.buffer_to_store)
    | _ => none

/-- C6: uploading one aspect of a combined D24S8 image performs, after the
ever-present raster load of the source buffer into RT0, three image
tile-buffer operations instead of one: first a load of the other aspect
from the image (via its Z or S buffer, naming the aspect), then the store
of the uploaded aspect (through RT0), then a re-store of the preserved
other aspect; for any non-D24S8 format only the single store through RT0
follows the buffer load. -/
theorem C6_single_aspect_upload (fb : framebuffer_data) (img : v3dv_image)
    (region : VkBufferImageCopy) (layer : Nat) :
    (fb.vk_format = VkFormat.D24_UNORM_S8_UINT →
      region.imageSubresource.aspectMask = VK_IMAGE_ASPECT_DEPTH_BIT →
      tlbOps (emit_copy_buffer_to_layer_per_tile_list fb img layer region) =
        [(false, TLBBufferTarget.RENDER_TARGET_0),
         (false, TLBBufferTarget.S),
         (true, TLBBufferTarget.RENDER_TARGET_0),
         (true, TLBBufferTarget.S)]) ∧
    (fb.vk_format = VkFormat.D24_UNORM_S8_UINT →
      region.imageSubresource.aspectMask = VK_IMAGE_ASPECT_STENCIL_BIT →
      tlbOps (emit_copy_buffer_to_layer_per_tile_list fb img layer region) =
        [(false, TLBBufferTarget.RENDER_TARGET_0),
         (false, TLBBufferTarget.Z),
         (true, TLBBufferTarget.RENDER_TARGET_0),
         (true, TLBBufferTarget.Z)]) ∧
    (fb.vk_format ≠ VkFormat.D24_UNORM_S8_UINT →
      tlbOps (emit_copy_buffer_to_layer_per_tile_list fb img layer region) =
        [(false, TLBBufferTarget.RENDER_TARGET_0),
         (true, TLBBufferTarget.RENDER_TARGET_0)]) := by
  have h42 : (4 : Nat) &&& 2 = 0 := by decide
  have h24 : (2 : Nat) &&& 4 = 0 := by decide
  have h22 : (2 : Nat) &&& 2 = 2 := by decide
  have h44 : (4 : Nat) &&& 4 = 4 := by decide
  refine ⟨?_, ?_, ?_⟩
  · intro hf ha
    simp [emit_copy_buffer_to_layer_per_tile_list, tlbOps, hf, ha,
      emit_linear_load, emit_image_load, emit_image_store,
      v3dv_zs_buffer_from_aspect_bits, VK_IMAGE_ASPECT_DEPTH_BIT,
      VK_IMAGE_ASPECT_STENCIL_BIT, VK_IMAGE_ASPECT_COLOR_BIT,
      h42, h24, h22, h44]
  · intro hf ha
    simp [emit_copy_buffer_to_layer_per_tile_list, tlbOps, hf, ha,
      emit_linear_load, emit_image_load, emit_image_store,
      v3dv_zs_buffer_from_aspect_bits, VK_IMAGE_ASPECT_DEPTH_BIT,
      VK_IMAGE_ASPECT_STENCIL_BIT, VK_IMAGE_ASPECT_COLOR_BIT,
      h42, h24, h22, h44]
  · intro hf
    simp [emit_copy_buffer_to_layer_per_tile_list, tlbOps, hf,
      emit_linear_load, emit_image_store]

/-- C6 witness: the theorem applied to a concrete D24S8 depth-aspect
upload. -/
theorem C6_single_aspect_upload_witness :
    tlbOps (emit_copy_buffer_to_layer_per_tile_list
        ⟨0, 0, 0, 0, 0, VkFormat.D24_UNORM_S8_UINT, ⟨7, 0⟩⟩
        ⟨4, 4, 1, fun _ => ⟨VC5Tiling.UIF_NO_XOR, 24, 0⟩⟩ 0
        ⟨0, 0, 0, ⟨2, 0, 0, 1⟩, ⟨8, 8, 1⟩⟩) =
      [(false, TLBBufferTarget.RENDER_TARGET_0),
       (false, TLBBufferTarget.S),
       (true, TLBBufferTarget.RENDER_TARGET_0),
       (true, TLBBufferTarget.S)] :=
  (C6_single_aspect_upload
    ⟨0, 0, 0, 0, 0, VkFormat.D24_UNORM_S8_UINT, ⟨7, 0⟩⟩
    ⟨4, 4, 1, fun _ => ⟨VC5Tiling.UIF_NO_XOR, 24, 0⟩⟩
    ⟨0, 0, 0, ⟨2, 0, 0, 1⟩, ⟨8, 8, 1⟩⟩ 0).1 rfl rfl

/-! ## Buffer-to-buffer copy splitting -/

/-- Item size selected by `copy_buffer` from the byte length's remainder
mod 4. -/
def copy_item_size (size : Nat) : Nat :=
  match size % 4 with
  | 0 => 4
  | 2 => 2
  | _ => 1

/-- Output image format selected by `copy_buffer` alongside the item
size. -/
def copy_item_format (size : Nat) : Nat :=
  match size % 4 with
  | 0 => V3D_OUTPUT_IMAGE_FORMAT_RGBA8UI
  | 2 => V3D_OUTPUT_IMAGE_FORMAT_RG8UI
  | _ => V3D_OUTPUT_IMAGE_FORMAT_R8UI

/-- Vulkan format selected by `copy_buffer` alongside the item size (the
ids are the Vulkan enum values). -/
def copy_item_vk_format (size : Nat) : VkFormat :=
  match size % 4 with
  | 0 => VkFormat.color 37
  | 2 => VkFormat.color 21
  | _ => VkFormat.color 13

/-- One job frame produced by the `copy_buffer` loop: the source/target
byte offsets it starts at and the frame dimensions it processes. -/
structure CopyJobFrame where
  src_offset : Nat
  dst_offset : Nat
  width : Nat
  height : Nat
deriving DecidableEq, Repr

/-- The `copy_buffer` `while (num_items > 0)` loop, fuel-indexed: each
iteration sizes a framebuffer for the remaining items, emits one job, and
advances both offsets by the bytes covered.  One job always covers at
least one item, so fuel `num_items` suffices. -/
def copy_buffer_go : Nat → Nat → Nat → Nat → Nat → List CopyJobFrame
  | 0, _, _, _, _ => []
  | fuel + 1, num_items, src_offset, dst_offset, item_size =>
    if num_items = 0 then []
    else
      let wh := framebuffer_size_for_pixel_count num_items
      let items_copied := wh.1 * wh.2
      let bytes_copied := items_copied * item_size
      ⟨src_offset, dst_offset, wh.1, wh.2⟩ ::
        copy_buffer_go fuel (num_items - items_copied)
          (src_offset + bytes_copied) (dst_offset + bytes_copied) item_size

/-- Embedding of `copy_buffer` for one region: the list of job frames the
loop produces. -/
def copy_buffer (srcOffset dstOffset size : Nat) : List CopyJobFrame :=
  copy_buffer_go (size / copy_item_size size) (size / copy_item_size size)
    srcOffset dstOffset (copy_item_size size)

/-- Offset chaining between consecutive `copy_buffer` jobs: each job
starts where the previous one stopped, advanced by the bytes it covered. -/
def copyChainRel (item_size : Nat) (a b : CopyJobFrame) : Prop :=
  b.src_offset = a.src_offset + a.width * a.height * item_size ∧
  b.dst_offset = a.dst_offset + a.width * a.height * item_size

/-- A framebuffer sized for a positive pixel count covers at least one and
at most that many pixels. -/
lemma framebuffer_size_pos_le (n : Nat) (hn : 0 < n) :
    0 < (framebuffer_size_for_pixel_count n).1 *
        (framebuffer_size_for_pixel_count n).2 ∧
      (framebuffer_size_for_pixel_count n).1 *
        (framebuffer_size_for_pixel_count n).2 ≤ n := by
  by_cases h : 4096 * 4096 < n
  · simp only [framebuffer_size_for_pixel_count, if_pos h]
    omega
  · simp only [framebuffer_size_for_pixel_count, if_neg h]
    have hb := fbGo_bounds n n 1 n hn le_rfl (by omega) (by omega)
      ⟨0, rfl⟩ (by omega) (by omega)
    exact ⟨Nat.mul_pos hb.2.2.2.1 hb.2.2.2.2, hb.1⟩

/-- The loop covers exactly its starting item count. -/
lemma copy_buffer_go_sum (fuel : Nat) : ∀ n s d isz, n ≤ fuel →
    ((copy_buffer_go fuel n s d isz).map fun j => j.width * j.height).sum
      = n := by
  induction fuel with
  | zero => intro n s d isz h; simp [copy_buffer_go]; omega
  | succ fuel ih =>
    intro n s d isz h
    by_cases h0 : n = 0
    · simp [copy_buffer_go, h0]
    · have hfs := framebuffer_size_pos_le n (by omega)
      simp only [copy_buffer_go, if_neg h0, List.map_cons, List.sum_cons]
      rw [ih (n - (framebuffer_size_for_pixel_count n).1 *
          (framebuffer_size_for_pixel_count n).2) _ _ isz (by omega)]
      omega

/-- The loop's first job starts at the given offsets, and consecutive jobs
chain: each starts where the previous stopped. -/
lemma copy_buffer_go_chain (fuel : Nat) : ∀ n s d isz, n ≤ fuel →
    (∀ j ∈ (copy_buffer_go fuel n s d isz).head?,
      j.src_offset = s ∧ j.dst_offset = d) ∧
    List.Chain' (copyChainRel isz) (copy_buffer_go fuel n s d isz) := by
  induction fuel with
  | zero =>
    intro n s d isz h
    simp [copy_buffer_go]
  | succ fuel ih =>
    intro n s d isz h
    by_cases h0 : n = 0
    · simp [copy_buffer_go, h0]
    · have hfs := framebuffer_size_pos_le n (by omega)
      simp only [copy_buffer_go, if_neg h0]
      have htail := ih (n - (framebuffer_size_for_pixel_count n).1 *
          (framebuffer_size_for_pixel_count n).2)
        (s + (framebuffer_size_for_pixel_count n).1 *
          (framebuffer_size_for_pixel_count n).2 * isz)
        (d + (framebuffer_size_for_pixel_count n).1 *
          (framebuffer_size_for_pixel_count n).2 * isz)
        isz (by omega)
      constructor
      · intro j hj
        simp only [List.head?_cons, Option.mem_def, Option.some.injEq] at hj
        subst hj
        exact ⟨rfl, rfl⟩
      · rw [List.chain'_cons']
        refine ⟨?_, htail.2⟩
        intro b hb
        have := htail.1 b hb
        exact ⟨by simp [copyChainRel, this.1], by simp [copyChainRel, this.2]⟩

/-- C7: for every region byte length L > 0, the item size is chosen purely
from L mod 4 (0 gives 4-byte RGBA8UI items, 2 gives 2-byte RG8UI items, 1
or 3 give 1-byte R8UI items), L is exactly divisible by the chosen item
size, the produced jobs together cover exactly num_items = L / item_size
items, the first job starts at the region's offsets, and each later job's
offsets advance by the previous job's items_copied * item_size bytes. -/
theorem C7_copy_buffer_items (size srcOffset dstOffset : Nat)
    (hsz : 0 < size) :
    (size % 4 = 0 → copy_item_size size = 4 ∧
      copy_item_format size = V3D_OUTPUT_IMAGE_FORMAT_RGBA8UI) ∧
    (size % 4 = 2 → copy_item_size size = 2 ∧
      copy_item_format size = V3D_OUTPUT_IMAGE_FORMAT_RG8UI) ∧
    (size % 4 = 1 ∨ size % 4 = 3 → copy_item_size size = 1 ∧
      copy_item_format size = V3D_OUTPUT_IMAGE_FORMAT_R8UI) ∧
    size % copy_item_size size = 0 ∧
    ((copy_buffer srcOffset dstOffset size).map
      fun j => j.width * j.height).sum = size / copy_item_size size ∧
    (∀ j ∈ (copy_buffer srcOffset dstOffset size).head?,
      j.src_offset = srcOffset ∧ j.dst_offset = dstOffset) ∧
    List.Chain' (copyChainRel (copy_item_size size))
      (copy_buffer srcOffset dstOffset size) := by
  have hchain := copy_buffer_go_chain (size / copy_item_size size)
    (size / copy_item_size size) srcOffset dstOffset
    (copy_item_size size) le_rfl
  refine ⟨?_, ?_, ?_, ?_, ?_, hchain.1, hchain.2⟩
  · intro h
    constructor <;> simp [copy_item_size, copy_item_format, h]
  · intro h
    constructor <;> simp [copy_item_size, copy_item_format, h]
  · intro h
    rcases h with h | h <;> constructor <;>
      simp [copy_item_size, copy_item_format, h]
  · have h4 : size % 4 = 0 ∨ size % 4 = 1 ∨ size % 4 = 2 ∨ size % 4 = 3 :=
      by omega
    rcases h4 with h | h | h | h <;> simp [copy_item_size, h] <;> omega
  · exact copy_buffer_go_sum (size / copy_item_size size)
      (size / copy_item_size size) srcOffset dstOffset
      (copy_item_size size) le_rfl

/-- C7 witness: the theorem applied to the 4100-byte scenario; 4-byte
items, 1025 of them, handled by one job starting at the given offsets. -/
theorem C7_copy_buffer_items_witness :
    ((copy_buffer 16 32 4100).map fun j => j.width * j.height).sum =
        4100 / copy_item_size 4100 ∧
      copy_buffer 16 32 4100 = [⟨16, 32, 1025, 1⟩] :=
  ⟨(C7_copy_buffer_items 4100 16 32 (by decide)).2.2.2.2.1, by decide⟩

/-! ## Bifrost packing-test sweep combinations -/

/-- The (outmod, inmod) combinations for which `bit_fmod_helper` actually
invokes `bit_test_single`: the double loop over outmod < 4 and inmod < 16,
minus the combinations skipped by the FMA 16-bit both-abs restriction
(src_abs[0] is bit 0 of inmod, src_abs[1] is bit 1). -/
def bit_fmod_combos (fma : Bool) (size : Nat) : List (Nat × Nat) :=
  (List.range 4).flatMap fun outmod =>
    (List.range 16).filterMap fun inmod =>
      if fma = true ∧ size = 16 ∧ inmod &&& 1 ≠ 0 ∧ inmod &&& 2 ≠ 0 then
        none
      else some (outmod, inmod)

/-- The (outmod, inmod) combinations for which `bit_fma_helper` invokes
`bit_test_single`: the full double loop over outmod < 4 and inmod < 8
(negate bits only; no combination is skipped). -/
def bit_fma_combos : List (Nat × Nat) :=
  (List.range 4).flatMap fun outmod =>
    (List.range 8).map fun inmod => (outmod, inmod)

/-- Filtering a list with an everywhere-some function is a map. -/
lemma filterMap_some_eq_map {α β : Type} (f : α → β) (l : List α) :
    (l.filterMap fun a => some (f a)) = l.map f := by
  induction l with
  | nil => rfl
  | cons a l ih => simp [List.filterMap_cons, ih]

/-- Length of a flatMap whose blocks all have the same length. -/
lemma length_flatMap_const {α β : Type} (l : List α) (f : α → List β)
    (n : Nat) (h : ∀ a ∈ l, (f a).length = n) :
    (l.flatMap f).length = l.length * n := by
  rw [List.length_flatMap]
  have hmap : List.map (List.length ∘ f) l = List.map (fun _ => n) l :=
    List.map_congr_left fun a ha => h a ha
  rw [hmap, List.map_const', List.sum_replicate, smul_eq_mul]

/-- C9 counterexample: the three-source fused-multiply-add sweep runs 32
outmod-inmod combinations (4 output modifiers times 8 negate settings),
not the 8 stated by the claim. -/
theorem C9_sweep_counterexample :
    bit_fma_combos.length = 32 ∧ ¬ bit_fma_combos.length = 8 := by
  constructor
  · decide
  · decide

/-- C9 amended: the two-source sweep enumerates all 64 outmod-inmod
combinations, and skips only the both-abs combinations when run on the FMA
unit at 16-bit precision (leaving 48 executed there); the three-source
fused-multiply-add sweep enumerates all 32 combinations (4 output
modifiers times 8 negate settings) and skips none. -/
theorem C9_sweep_combinations_amended (fma : Bool) (size : Nat) :
    (¬ (fma = true ∧ size = 16) →
      (bit_fmod_combos fma size).length = 64 ∧
      ∀ om im : Nat, (om, im) ∈ bit_fmod_combos fma size ↔
        om < 4 ∧ im < 16) ∧
    (fma = true ∧ size = 16 →
      (bit_fmod_combos fma size).length = 48 ∧
      ∀ om im : Nat, (om, im) ∈ bit_fmod_combos fma size ↔
        om < 4 ∧ im < 16 ∧ ¬ (im &&& 1 ≠ 0 ∧ im &&& 2 ≠ 0)) ∧
    bit_fma_combos.length = 32 ∧
    (∀ om im : Nat, (om, im) ∈ bit_fma_combos ↔ om < 4 ∧ im < 8) := by
  refine ⟨?_, ?_, by decide, ?_⟩
  · intro h
    have hcond : ∀ im : Nat,
        ¬ (fma = true ∧ size = 16 ∧ im &&& 1 ≠ 0 ∧ im &&& 2 ≠ 0) :=
      fun im hc => h ⟨hc.1, hc.2.1⟩
    constructor
    · unfold bit_fmod_combos
      rw [length_flatMap_const _ _ 16]
      · simp
      · intro a _
        rw [show (fun inmod =>
            if fma = true ∧ size = 16 ∧ inmod &&& 1 ≠ 0 ∧
                inmod &&& 2 ≠ 0 then
              none
            else some (a, inmod)) = fun inmod => some (a, inmod) from
          funext fun im => if_neg (hcond im)]
        rw [filterMap_some_eq_map (fun inmod => (a, inmod))]
        simp
    · intro om im
      simp only [bit_fmod_combos, List.mem_flatMap, List.mem_filterMap,
        List.mem_range]
      constructor
      · rintro ⟨a, ha, b, hb, heq⟩
        rw [if_neg (hcond b)] at heq
        cases heq
        exact ⟨ha, hb⟩
      · rintro ⟨hom, him⟩
        exact ⟨om, hom, im, him, by rw [if_neg (hcond im)]⟩
  · rintro ⟨h1, h2⟩
    subst h1
    subst h2
    constructor
    · decide
    · intro om im
      simp only [bit_fmod_combos, List.mem_flatMap, List.mem_filterMap,
        List.mem_range]
      constructor
      · rintro ⟨a, ha, b, hb, heq⟩
        by_cases hP : b &&& 1 ≠ 0 ∧ b &&& 2 ≠ 0
        · rw [if_pos ⟨trivial, trivial, hP⟩] at heq
          cases heq
        · rw [if_neg fun hc => hP hc.2.2] at heq
          cases heq
          exact ⟨ha, hb, hP⟩
      · rintro ⟨hom, him, hP⟩
        exact ⟨om, hom, im, him, by rw [if_neg fun hc => hP hc.2.2]⟩
  · intro om im
    simp only [bit_fma_combos, List.mem_flatMap, List.mem_map,
      List.mem_range]
    constructor
    · rintro ⟨a, ha, b, hb, heq⟩
      cases heq
      exact ⟨ha, hb⟩
    · rintro ⟨hom, him⟩
      exact ⟨om, hom, im, him, rfl⟩

/-- C9 witness: the amended theorem applied on the FMA unit at 16-bit
precision, where 48 of the 64 two-source combinations execute. -/
theorem C9_sweep_combinations_amended_witness :
    (bit_fmod_combos true 16).length = 48 :=
  ((C9_sweep_combinations_amended true 16).2.1 ⟨rfl, rfl⟩).1

/-! ## Fill-buffer size handling -/

/-- VK_WHOLE_SIZE, the all-ones 64-bit VkDeviceSize value. -/
def VK_WHOLE_SIZE : Nat := 18446744073709551615

/-- The byte count `v3dv_CmdFillBuffer` forwards to `fill_buffer`: for
VK_WHOLE_SIZE the remaining buffer size past dstOffset rounded down to a
multiple of 4 (`size -= size % 4`), otherwise the caller's size
unchanged. -/
def v3dv_CmdFillBuffer_size (buffer_size dstOffset size : Nat) : Nat :=
  if size = VK_WHOLE_SIZE then
    (buffer_size - dstOffset) - (buffer_size - dstOffset) % 4
  else size

/-- The assertion at the top of `fill_buffer`:
`assert(size > 0 && size % 4 == 0)`. -/
def fill_buffer_size_assert (size : Nat) : Prop := 0 < size ∧ size % 4 = 0

/-- C10: on the VK_WHOLE_SIZE path the byte count forwarded to
`fill_buffer` is the remaining buffer size past dstOffset rounded down to
the nearest multiple of 4, so its mod-4 alignment assertion always holds
there; explicit sizes are forwarded unchanged, so there the assertion
holds exactly when the caller already passed a positive multiple of 4. -/
theorem C10_fill_buffer_whole_size (buffer_size dstOffset : Nat) :
    (v3dv_CmdFillBuffer_size buffer_size dstOffset VK_WHOLE_SIZE) % 4
      = 0 ∧
    v3dv_CmdFillBuffer_size buffer_size dstOffset VK_WHOLE_SIZE =
      4 * ((buffer_size - dstOffset) / 4) ∧
    (∀ size : Nat, size ≠ VK_WHOLE_SIZE →
      v3dv_CmdFillBuffer_size buffer_size dstOffset size = size ∧
      (fill_buffer_size_assert
          (v3dv_CmdFillBuffer_size buffer_size dstOffset size) ↔
        0 < size ∧ size % 4 = 0)) := by
  have hw : v3dv_CmdFillBuffer_size buffer_size dstOffset VK_WHOLE_SIZE =
      (buffer_size - dstOffset) - (buffer_size - dstOffset) % 4 := by
    unfold v3dv_CmdFillBuffer_size
    rw [if_pos rfl]
  refine ⟨?_, ?_, ?_⟩
  · rw [hw]
    omega
  · rw [hw]
    omega
  · intro size hne
    have hx : v3dv_CmdFillBuffer_size buffer_size dstOffset size = size := by
      unfold v3dv_CmdFillBuffer_size
      rw [if_neg hne]
    rw [hx]
    exact ⟨rfl, Iff.rfl⟩

/-- C10 witness: the theorem applied at a 10-byte buffer with dstOffset 2
(VK_WHOLE_SIZE fills 8 bytes) and at the explicit size 12. -/
theorem C10_fill_buffer_whole_size_witness :
    (v3dv_CmdFillBuffer_size 10 2 VK_WHOLE_SIZE) % 4 = 0 ∧
      v3dv_CmdFillBuffer_size 10 2 12 = 12 :=
  ⟨(C10_fill_buffer_whole_size 10 2).1,
    ((C10_fill_buffer_whole_size 10 2).2.2 12 (by decide)).1⟩
